import Mathlib

/-!
Verification of the nano-banana MCP server (`src/index.ts`).

The development shallowly embeds the session-scoped tool
dispatcher: the session state (credentials, API-client handle,
`lastImagePath`, provenance tag), the six tool handlers, the response
normalisation loops of `generateImage` / `editImage`, and the
uniform error translation of the dispatcher.

External collaborators are parameters of an `Env` record:
the remote `generateContent` call (its outcome is `Env.apiResult`),
`Date.toISOString` / `Math.random().toString(36).substring(2, 8)`
(`Env.isoNow` / `Env.randId`, indexed by how many filenames the call has
synthesised so far), the Node base64 codec (`Env.decode` / `Env.encode`),
the save directory chosen by `getImagesDirectory` (`Env.imagesDir`),
and the working directory (`Env.cwd`).  The filesystem is an explicit
association list of path/file pairs threaded through every handler.

Renaming forced by the host language tooling: the source field
`aspectRatio` is called `aspect` here; everything else keeps the
names of the source.
-/

set_option autoImplicit false

namespace NanoBanana

/-- Protocol error codes used by the server (`ErrorCode` of the MCP SDK). -/
inductive ErrCode where
  | methodNotFound
  | invalidParams
  | invalidRequest
  | internalError
  deriving DecidableEq, Repr

/-- The `McpError` shape: a protocol-level error with a code and a message. -/
structure McpError where
  code : ErrCode
  message : String
  deriving DecidableEq, Repr

/-- A JavaScript exception as seen by the dispatcher `catch`: either an
`McpError` or some other thrown error, identified by its message. -/
inductive JsError where
  | mcp (e : McpError)
  | other (message : String)
  deriving DecidableEq, Repr

/-- A content part of a `CallToolResult`: a text block or an inline image
(base64 data plus mime type). -/
inductive ContentPart where
  | text (s : String)
  | image (data : String) (mimeType : String)
  deriving DecidableEq, Repr

/-- The result of a successful tool call. -/
structure CallToolResult where
  content : List ContentPart
  deriving DecidableEq, Repr

/-- Provenance tag of the active credentials (`configSource`). -/
inductive ConfigSource where
  | environment
  | config_file
  | not_configured
  deriving DecidableEq, Repr

/-- The mutable session state of the `NanoBananaMCP` instance:
`config` is the stored API key (if any), `genAI` records whether the
API-client handle is constructed, `lastImagePath` the most recently
saved image, `configSource` the provenance tag. -/
structure SessionState where
  config : Option String
  genAI : Bool
  lastImagePath : Option String
  configSource : ConfigSource
  deriving DecidableEq, Repr

/-- Field initialisers of the `NanoBananaMCP` class: everything absent. -/
def initialState : SessionState :=
  { config := none, genAI := false, lastImagePath := none,
    configSource := ConfigSource.not_configured }

/-- Models `ensureConfigured()`: both the config and the client handle are present. -/
def ensureConfigured (st : SessionState) : Bool :=
  st.config.isSome && st.genAI

/-- Contents of a file: binary (image bytes) or textual (config JSON). -/
inductive FSContent where
  | bin (bytes : List Nat)
  | txt (s : String)
  deriving DecidableEq, Repr

/-- Byte size reported by `fs.stat` for a stored file. -/
def FSContent.size : FSContent → Nat
  | FSContent.bin bs => bs.length
  | FSContent.txt s => s.length

/-- A stored file: contents plus the modification-time string that
`stats.mtime.toLocaleString()` would render. -/
structure FileData where
  content : FSContent
  mtime : String
  deriving DecidableEq, Repr

/-- Lookup in an association list of files; the most recent write is at
the head and shadows older entries. -/
def lookupFile : List (String × FileData) → String → Option FileData
  | [], _ => none
  | e :: es, p => if e.1 = p then some e.2 else lookupFile es p

/-- The filesystem visible to the server: files plus created directories. -/
structure FS where
  files : List (String × FileData)
  dirs : List String
  deriving DecidableEq, Repr

/-- Models `fs.readFile` / `fs.access` / `fs.stat` target resolution. -/
def readFS (fs : FS) (p : String) : Option FileData :=
  lookupFile fs.files p

/-- Models `fs.writeFile`: create or overwrite (the new entry shadows old ones). -/
def writeFS (fs : FS) (p : String) (d : FileData) : FS :=
  { files := (p, d) :: fs.files, dirs := fs.dirs }

/-- Models `fs.mkdir(dir, recursive)`: record the directory. -/
def mkdirp (fs : FS) (d : String) : FS :=
  if d ∈ fs.dirs then fs else { files := fs.files, dirs := d :: fs.dirs }

/-- The `inlineData` field of an upstream response part. -/
structure InlineData where
  data : Option String
  mimeType : Option String
  deriving DecidableEq, Repr

/-- One part of the content of an upstream response candidate. -/
structure Part where
  text : Option String
  inlineData : Option InlineData
  deriving DecidableEq, Repr

/-- The `content` field of an upstream response candidate. -/
structure RespContent where
  parts : Option (List Part)
  deriving DecidableEq, Repr

/-- One candidate of the upstream response. -/
structure Candidate where
  content : Option RespContent
  deriving DecidableEq, Repr

/-- The raw upstream `generateContent` response. -/
structure GenResponse where
  candidates : Option (List Candidate)
  deriving DecidableEq, Repr

/-- JavaScript truthiness of an optional string: present and non-empty. -/
def strTruthy : Option String → Bool
  | none => false
  | some s => s ≠ ""

/-- Models `a || b` on an optional string: the default fires on absent or empty. -/
def orDefault (o : Option String) (d : String) : String :=
  match o with
  | some s => if s = "" then d else s
  | none => d

/-- The guard `response.candidates && response.candidates[0]?.content?.parts`:
the parts actually iterated over, or `[]` when the guard is falsy. -/
def responseParts (r : GenResponse) : List Part :=
  match r.candidates with
  | none => []
  | some cs =>
    match cs.head? with
    | none => []
    | some c =>
      match c.content with
      | none => []
      | some ct => ct.parts.getD []

/-- One part of the request sent to the remote model. -/
inductive ReqPart where
  | inline (data : String) (mimeType : String)
  | text (t : String)
  deriving DecidableEq, Repr

/-- The `contents` of a remote request: a bare prompt (generate) or a single
content object holding parts (edit). -/
inductive RemoteContents where
  | promptText (prompt : String)
  | parts (ps : List ReqPart)
  deriving DecidableEq, Repr

/-- The `imageConfig` object: the aspect ratio, plus the resolution tier
only when the pro model variant is active (source name: `aspectRatio`). -/
structure ImageCfg where
  aspect : String
  imageSize : Option String
  deriving DecidableEq, Repr

/-- A remote `generateContent` invocation as observed at the boundary. -/
structure RemoteRequest where
  model : String
  contents : RemoteContents
  imageCfg : ImageCfg
  deriving DecidableEq, Repr

/-- External collaborators and nondeterminism, fixed per call. -/
structure Env where
  defaultImageModel : String
  imagesDir : String
  cwd : String
  apiResult : Except String GenResponse
  isoNow : Nat → String
  randId : Nat → String
  decode : String → List Nat
  encode : FSContent → String
  nowStr : String

/-- The argument bag of a tool call, after the handler type cast
(source name of `aspect`: `aspectRatio`). -/
structure Arguments where
  apiKey : Option String := none
  prompt : String := ""
  imagePath : String := ""
  referenceImages : Option (List String) := none
  aspect : Option String := none
  imageSize : Option String := none
  deriving DecidableEq, Repr

/-- Split a character list at every occurrence of a separator
(the semantics of `String.split` on a one-character separator,
executable by the kernel). -/
def splitChar (sep : Char) : List Char → List (List Char)
  | [] => [[]]
  | c :: cs =>
    let r := splitChar sep cs
    if c = sep then [] :: r
    else
      match r with
      | [] => [[c]]
      | g :: gs => (c :: g) :: gs

/-- ASCII lower-casing of a string (`String.toLowerCase` of JS on the
extension strings involved), executable by the kernel. -/
def lowerStr (s : String) : String :=
  String.mk (s.data.map Char.toLower)

/-- Models `path.extname`: the extension of the basename, from its last dot,
empty when there is no dot past the first character. -/
def extname (p : String) : String :=
  let base := (splitChar '/' p.data).getLastD []
  let pieces := splitChar '.' base
  if pieces.length ≤ 1 then ""
  else if pieces.length = 2 ∧ pieces.getD 0 [] = [] then ""
  else String.mk ('.' :: pieces.getLastD [])

/-- The `getMimeType` method: fixed extension-to-mime mapping with `image/jpeg`
as the default. -/
def getMimeType (filePath : String) : String :=
  let ext := lowerStr (extname filePath)
  if ext = ".jpg" ∨ ext = ".jpeg" then "image/jpeg"
  else if ext = ".png" then "image/png"
  else if ext = ".webp" then "image/webp"
  else "image/jpeg"

/-- Models the timestamp sanitisation step of filename synthesis, which replaces every colon and dot of the ISO timestamp with a dash. -/
def sanitizeTs (s : String) : String :=
  String.mk (s.data.map (fun c => if c = ':' ∨ c = '.' then '-' else c))

/-- Models `list.join(sep)` on strings. -/
def joinSep (sep : String) : List String → String
  | [] => ""
  | [x] => x
  | x :: xs => x ++ sep ++ joinSep sep xs

/-- Everything a handler invocation produces: its result or thrown error,
the session state and filesystem afterwards, the `savedFiles` list it
accumulated, and the remote request it issued (if any). -/
structure HandlerOut where
  result : Except JsError CallToolResult
  state : SessionState
  fs : FS
  savedFiles : List String
  remoteRequest : Option RemoteRequest

/-- Accumulator of the response-processing loops of `generateImage` and
`editImage`: content parts and saved files gathered so far, accumulated
description text, the pending `lastImagePath`, the filesystem, and how
many filenames have been synthesised (indexing `isoNow` / `randId`). -/
structure LoopAcc where
  content : List ContentPart
  savedFiles : List String
  textContent : String
  lastImagePath : Option String
  fs : FS
  k : Nat

/-- Filename synthesised for the k-th image of a `generateImage` call. -/
def genFileName (env : Env) (k : Nat) : String :=
  "generated-" ++ sanitizeTs (env.isoNow k) ++ "-" ++ env.randId k ++ ".png"

/-- Filename synthesised for the k-th image of an `editImage` call. -/
def editFileName (env : Env) (k : Nat) : String :=
  "edited-" ++ sanitizeTs (env.isoNow k) ++ "-" ++ env.randId k ++ ".png"

/-- One iteration of the `generateImage` response loop: accumulate truthy
text; when `part.inlineData?.data` is truthy, synthesise a filename,
write the decoded bytes, record the file, set `lastImagePath`, and push
an image content part carrying the original data and mime type. -/
def processGenPart (env : Env) (imagesDir : String) (acc : LoopAcc) (part : Part) :
    LoopAcc :=
  let acc :=
    if strTruthy part.text then
      { acc with textContent := acc.textContent ++ part.text.getD "" }
    else acc
  match part.inlineData with
  | none => acc
  | some d =>
    if strTruthy d.data then
      let data := d.data.getD ""
      let filePath := imagesDir ++ "/" ++ genFileName env acc.k
      { acc with
        fs := writeFS acc.fs filePath
          { content := FSContent.bin (env.decode data), mtime := env.nowStr },
        savedFiles := acc.savedFiles ++ [filePath],
        lastImagePath := some filePath,
        content := acc.content ++
          [ContentPart.image data (orDefault d.mimeType "image/png")],
        k := acc.k + 1 }
    else acc

/-- One iteration of the `editImage` response loop.  It differs from the
generate loop in one observable way: the filename (and hence the
timestamp/random draw) is synthesised whenever `part.inlineData` is
present, while writing/recording happens only when `inlineData.data`
is additionally truthy. -/
def processEditPart (env : Env) (imagesDir : String) (acc : LoopAcc) (part : Part) :
    LoopAcc :=
  let acc :=
    if strTruthy part.text then
      { acc with textContent := acc.textContent ++ part.text.getD "" }
    else acc
  match part.inlineData with
  | none => acc
  | some d =>
    let filePath := imagesDir ++ "/" ++ editFileName env acc.k
    let acc := { acc with k := acc.k + 1 }
    if strTruthy d.data then
      let data := d.data.getD ""
      { acc with
        fs := writeFS acc.fs filePath
          { content := FSContent.bin (env.decode data), mtime := env.nowStr },
        savedFiles := acc.savedFiles ++ [filePath],
        lastImagePath := some filePath,
        content := acc.content ++
          [ContentPart.image data (orDefault d.mimeType "image/png")] }
    else acc

/-- Model-variant display name used in both status blocks. -/
def modelInfoOf (model : String) : String :=
  if model = "gemini-3-pro-image-preview" then "Gemini 3 Pro Image"
  else "Gemini 2.5 Flash Image"

/-- The status text block assembled by `generateImage`. -/
def genStatusText (model prompt aspect imageSize textContent : String)
    (savedFiles : List String) : String :=
  let s := "🎨 Image generated with nano-banana (" ++ modelInfoOf model ++
    ")!\n\nPrompt: \"" ++ prompt ++ "\"\nAspect Ratio: " ++ aspect
  let s := if model = "gemini-3-pro-image-preview" then
    s ++ "\nResolution: " ++ imageSize else s
  let s := if textContent ≠ "" then s ++ "\n\nDescription: " ++ textContent else s
  if savedFiles.length > 0 then
    s ++ "\n\n📁 Image saved to:\n" ++
      joinSep "\n" (savedFiles.map (fun f => "- " ++ f)) ++
      "\n\n💡 View the image by:" ++
      "\n1. Opening the file at the path above" ++
      "\n2. Clicking on \"Called generate_image\" in Cursor to expand the MCP call details" ++
      "\n\n🔄 To modify this image, use: continue_editing" ++
      "\n📋 To check current image info, use: get_last_image_info"
  else
    s ++ "\n\nNote: No image was generated. The model may have returned only text." ++
      "\n\n💡 Tip: Try running the command again - sometimes the first call needs to warm up the model."

/-- The status text block assembled by `editImage`. -/
def editStatusText (model imagePath prompt aspect imageSize : String)
    (referenceImages : Option (List String)) (textContent : String)
    (savedFiles : List String) : String :=
  let s := "🎨 Image edited with nano-banana (" ++ modelInfoOf model ++
    ")!\n\nOriginal: " ++ imagePath ++ "\nEdit prompt: \"" ++ prompt ++
    "\"\nAspect Ratio: " ++ aspect
  let s := if model = "gemini-3-pro-image-preview" then
    s ++ "\nResolution: " ++ imageSize else s
  let s :=
    match referenceImages with
    | some refs =>
      if refs.length > 0 then
        s ++ "\n\nReference images used:\n" ++
          joinSep "\n" (refs.map (fun f => "- " ++ f))
      else s
    | none => s
  let s := if textContent ≠ "" then s ++ "\n\nDescription: " ++ textContent else s
  if savedFiles.length > 0 then
    s ++ "\n\n📁 Edited image saved to:\n" ++
      joinSep "\n" (savedFiles.map (fun f => "- " ++ f)) ++
      "\n\n💡 View the edited image by:" ++
      "\n1. Opening the file at the path above" ++
      "\n2. Clicking on \"Called edit_image\" in Cursor to expand the MCP call details" ++
      "\n\n🔄 To continue editing, use: continue_editing" ++
      "\n📋 To check current image info, use: get_last_image_info"
  else
    s ++ "\n\nNote: No edited image was generated." ++
      "\n\n💡 Tip: Try running the command again - sometimes the first call needs to warm up the model."

/-- A handler outcome that only reports an error: state and filesystem
untouched, nothing saved, no remote call. -/
def errOut (e : McpError) (st : SessionState) (fs : FS) : HandlerOut :=
  { result := Except.error (JsError.mcp e), state := st, fs := fs,
    savedFiles := [], remoteRequest := none }

/-- Models `ConfigSchema.parse` on the `geminiApiKey` field:
`z.string().min(1, "Gemini API key is required")` — absent or empty
strings fail, anything of length at least one (whitespace included)
passes. -/
def zodParseKey : Option String → Except String String
  | none => Except.error "Required"
  | some s => if s.length ≥ 1 then Except.ok s else
      Except.error "Gemini API key is required"

/-- The `configureGeminiToken` handler: validate the key, then install credentials,
construct the client handle, tag provenance `config_file`, and persist
the key to `.nano-banana-config.json` in the working directory.
(The JSON escaping of special characters in the key is elided.) -/
def configureGeminiToken (env : Env) (st : SessionState) (fs : FS)
    (args : Arguments) : HandlerOut :=
  match zodParseKey args.apiKey with
  | Except.error m =>
    errOut { code := ErrCode.invalidParams, message := "Invalid API key: " ++ m } st fs
  | Except.ok key =>
    let st := { st with config := some key, genAI := true,
                        configSource := ConfigSource.config_file }
    let fs := writeFS fs (env.cwd ++ "/.nano-banana-config.json")
      { content := FSContent.txt
          ("\x7b\n  \"geminiApiKey\": \"" ++ key ++ "\"\n\x7d"),
        mtime := env.nowStr }
    { result := Except.ok
        { content := [ContentPart.text "✅ Gemini API token configured successfully! You can now use nano-banana image generation features."] },
      state := st, fs := fs, savedFiles := [], remoteRequest := none }

/-- The precondition error thrown by generate/edit/continue when the
session is not configured. -/
def notConfiguredError : McpError :=
  { code := ErrCode.invalidRequest,
    message := "Gemini API token not configured. Use configure_gemini_token first." }

/-- The `generateImage` handler: guard on configuration, call the remote model with
the bare prompt, then run the response loop and assemble the result
(status text first, then one image part per saved file). -/
def generateImage (env : Env) (st : SessionState) (fs : FS)
    (args : Arguments) : HandlerOut :=
  if ¬ ensureConfigured st then errOut notConfiguredError st fs
  else
    let aspect := args.aspect.getD "4:3"
    let imageSize := args.imageSize.getD "1K"
    let cfg : ImageCfg :=
      { aspect := aspect,
        imageSize := if env.defaultImageModel = "gemini-3-pro-image-preview"
          then some imageSize else none }
    let req : RemoteRequest :=
      { model := env.defaultImageModel,
        contents := RemoteContents.promptText args.prompt, imageCfg := cfg }
    match env.apiResult with
    | Except.error msg =>
      { result := Except.error (JsError.mcp
          { code := ErrCode.internalError,
            message := "Failed to generate image: " ++ msg }),
        state := st, fs := fs, savedFiles := [], remoteRequest := some req }
    | Except.ok response =>
      let fs := mkdirp fs env.imagesDir
      let acc := List.foldl (processGenPart env env.imagesDir)
        { content := [], savedFiles := [], textContent := "",
          lastImagePath := st.lastImagePath, fs := fs, k := 0 }
        (responseParts response)
      let statusText := genStatusText env.defaultImageModel args.prompt aspect
        imageSize acc.textContent acc.savedFiles
      { result := Except.ok { content := ContentPart.text statusText :: acc.content },
        state := { st with lastImagePath := acc.lastImagePath },
        fs := acc.fs, savedFiles := acc.savedFiles, remoteRequest := some req }

/-- The reference-image parts actually included in an edit request:
each reference path is read independently and unreadable ones are
silently dropped. -/
def refReqParts (env : Env) (fs : FS) : List String → List ReqPart
  | [] => []
  | rp :: rest =>
    match readFS fs rp with
    | some rfd =>
      ReqPart.inline (env.encode rfd.content) (getMimeType rp) :: refReqParts env fs rest
    | none => refReqParts env fs rest

/-- The `editImage` handler: guard on configuration, read the primary image (fatal on
failure), gather readable reference images, send primary + references +
prompt to the remote model, then run the response loop and assemble the
result exactly as `generateImage` does. -/
def editImage (env : Env) (st : SessionState) (fs : FS)
    (args : Arguments) : HandlerOut :=
  if ¬ ensureConfigured st then errOut notConfiguredError st fs
  else
    let aspect := args.aspect.getD "4:3"
    let imageSize := args.imageSize.getD "1K"
    match readFS fs args.imagePath with
    | none =>
      errOut { code := ErrCode.internalError,
               message := "Failed to edit image: ENOENT: no such file or directory, open " ++ args.imagePath } st fs
    | some fd =>
      let imageParts : List ReqPart :=
        ReqPart.inline (env.encode fd.content) (getMimeType args.imagePath) ::
          refReqParts env fs (args.referenceImages.getD []) ++
          [ReqPart.text args.prompt]
      let cfg : ImageCfg :=
        { aspect := aspect,
          imageSize := if env.defaultImageModel = "gemini-3-pro-image-preview"
            then some imageSize else none }
      let req : RemoteRequest :=
        { model := env.defaultImageModel,
          contents := RemoteContents.parts imageParts, imageCfg := cfg }
      match env.apiResult with
      | Except.error msg =>
        { result := Except.error (JsError.mcp
            { code := ErrCode.internalError,
              message := "Failed to edit image: " ++ msg }),
          state := st, fs := fs, savedFiles := [], remoteRequest := some req }
      | Except.ok response =>
        let fs := mkdirp fs env.imagesDir
        let acc := List.foldl (processEditPart env env.imagesDir)
          { content := [], savedFiles := [], textContent := "",
            lastImagePath := st.lastImagePath, fs := fs, k := 0 }
          (responseParts response)
        let statusText := editStatusText env.defaultImageModel args.imagePath
          args.prompt aspect imageSize args.referenceImages acc.textContent
          acc.savedFiles
        { result := Except.ok { content := ContentPart.text statusText :: acc.content },
          state := { st with lastImagePath := acc.lastImagePath },
          fs := acc.fs, savedFiles := acc.savedFiles, remoteRequest := some req }

/-- The `getConfigurationStatus` handler: a pure read reporting configured state and
provenance-specific guidance. -/
def getConfigurationStatus (st : SessionState) : CallToolResult :=
  if st.config.isSome && st.genAI then
    let sourceInfo :=
      match st.configSource with
      | ConfigSource.environment =>
        "\n📍 Source: Environment variable (GEMINI_API_KEY)\n💡 This is the most secure configuration method."
      | ConfigSource.config_file =>
        "\n📍 Source: Local configuration file (.nano-banana-config.json)\n💡 Consider using environment variables for better security."
      | ConfigSource.not_configured => ""
    { content := [ContentPart.text
        ("✅ Gemini API token is configured and ready to use" ++ sourceInfo)] }
  else
    { content := [ContentPart.text
        ("❌ Gemini API token is not configured" ++
          "\n\n📝 Configuration options (in priority order):\n1. 🥇 MCP client environment variables (Recommended)\n2. 🥈 System environment variable: GEMINI_API_KEY  \n3. 🥉 Use configure_gemini_token tool\n\n💡 For the most secure setup, add this to your MCP configuration:\n\"env\": \x7b \"GEMINI_API_KEY\": \"your-api-key-here\" \x7d")] }

/-- The `continueEditing` handler: guard on configuration, then on a stored
`lastImagePath`, then on that file still existing; finally delegate to
`editImage` with the stored path as primary image and all other
arguments passed through unchanged. -/
def continueEditing (env : Env) (st : SessionState) (fs : FS)
    (args : Arguments) : HandlerOut :=
  if ¬ ensureConfigured st then errOut notConfiguredError st fs
  else
    match st.lastImagePath with
    | none =>
      errOut { code := ErrCode.invalidRequest,
               message := "No previous image found. Please generate or edit an image first, then use continue_editing for subsequent edits." } st fs
    | some p =>
      if (readFS fs p).isSome then
        editImage env st fs
          { apiKey := none, prompt := args.prompt, imagePath := p,
            referenceImages := args.referenceImages, aspect := args.aspect,
            imageSize := args.imageSize }
      else
        errOut { code := ErrCode.invalidRequest,
                 message := "Last image file not found at: " ++ p ++ ". Please generate a new image first." } st fs

/-- The `getLastImageInfo` handler: a pure read of `lastImagePath`, with lazy
existence checking; reports path, size (`Math.round(size/1024)` KB,
rendered here as round-half-up natural division) and modification time. -/
def getLastImageInfo (st : SessionState) (fs : FS) : CallToolResult :=
  match st.lastImagePath with
  | none =>
    { content := [ContentPart.text
        "📷 No previous image found.\n\nPlease generate or edit an image first, then this command will show information about your last image."] }
  | some p =>
    match readFS fs p with
    | some fd =>
      { content := [ContentPart.text
          ("📷 Last Image Information:\n\nPath: " ++ p ++ "\nFile Size: " ++
            toString ((fd.content.size + 512) / 1024) ++ " KB\nLast Modified: " ++
            fd.mtime ++
            "\n\n💡 Use continue_editing to make further changes to this image.")] }
    | none =>
      { content := [ContentPart.text
          ("📷 Last Image Information:\n\nPath: " ++ p ++
            "\nStatus: ❌ File not found\n\n💡 The image file may have been moved or deleted. Please generate a new image.")] }

/-- The six registered tool names. -/
def toolNames : List String :=
  ["configure_gemini_token", "generate_image", "edit_image",
   "get_configuration_status", "continue_editing", "get_last_image_info"]

/-- The body of the `switch` in the `CallToolRequestSchema` handler: route by
exact name, throwing a method-not-found `McpError` on the default branch. -/
def callToolBody (env : Env) (st : SessionState) (fs : FS) (name : String)
    (args : Arguments) : HandlerOut :=
  if name = "configure_gemini_token" then configureGeminiToken env st fs args
  else if name = "generate_image" then generateImage env st fs args
  else if name = "edit_image" then editImage env st fs args
  else if name = "get_configuration_status" then
    { result := Except.ok (getConfigurationStatus st), state := st, fs := fs,
      savedFiles := [], remoteRequest := none }
  else if name = "continue_editing" then continueEditing env st fs args
  else if name = "get_last_image_info" then
    { result := Except.ok (getLastImageInfo st fs), state := st, fs := fs,
      savedFiles := [], remoteRequest := none }
  else
    errOut { code := ErrCode.methodNotFound,
             message := "Unknown tool: " ++ name } st fs

/-- The dispatcher `catch` block: `McpError` values are rethrown unchanged,
any other thrown error is wrapped into an internal error carrying the
underlying message. -/
def wrapDispatchError :
    Except JsError CallToolResult → Except McpError CallToolResult
  | Except.ok r => Except.ok r
  | Except.error (JsError.mcp e) => Except.error e
  | Except.error (JsError.other m) =>
    Except.error { code := ErrCode.internalError,
                   message := "Tool execution failed: " ++ m }

/-- A dispatched tool call as seen at the protocol boundary. -/
structure DispatchOut where
  result : Except McpError CallToolResult
  state : SessionState
  fs : FS
  savedFiles : List String
  remoteRequest : Option RemoteRequest

/-- The complete `call_tool` request handler: run the switch body, then
apply the error translation of the catch block. -/
def callTool (env : Env) (st : SessionState) (fs : FS) (name : String)
    (args : Arguments) : DispatchOut :=
  let h := callToolBody env st fs name args
  { result := wrapDispatchError h.result, state := h.state, fs := h.fs,
    savedFiles := h.savedFiles, remoteRequest := h.remoteRequest }

/-! ### Spec-side projections of the response loops

The following functions restate what the two response loops accumulate,
by structural recursion over the upstream parts; the `fold*_eq` lemmas
prove the loops equal to them. -/

/-- The image content parts pushed by either response loop: one per part
with truthy inline data, in upstream order, carrying the original data
and the declared (or default) mime type. -/
def imageContentsOf : List Part → List ContentPart
  | [] => []
  | p :: ps =>
    match p.inlineData with
    | some d =>
      if strTruthy d.data then
        ContentPart.image (d.data.getD "") (orDefault d.mimeType "image/png") ::
          imageContentsOf ps
      else imageContentsOf ps
    | none => imageContentsOf ps

/-- The accumulated description text of a list of parts. -/
def textsOf : List Part → String
  | [] => ""
  | p :: ps => (if strTruthy p.text then p.text.getD "" else "") ++ textsOf ps

/-- The files written by the `generateImage` loop, starting from
synthesis counter `k`: path and stored data for each truthy-data part. -/
def genWrites (env : Env) (dir : String) (k : Nat) : List Part → List (String × FileData)
  | [] => []
  | p :: ps =>
    match p.inlineData with
    | some d =>
      if strTruthy d.data then
        (dir ++ "/" ++ genFileName env k,
          { content := FSContent.bin (env.decode (d.data.getD "")), mtime := env.nowStr }) ::
          genWrites env dir (k + 1) ps
      else genWrites env dir k ps
    | none => genWrites env dir k ps

/-- The files written by the `editImage` loop: as `genWrites`, but the
synthesis counter also advances on parts whose `inlineData` is present
with falsy data. -/
def editWrites (env : Env) (dir : String) (k : Nat) : List Part → List (String × FileData)
  | [] => []
  | p :: ps =>
    match p.inlineData with
    | some d =>
      if strTruthy d.data then
        (dir ++ "/" ++ editFileName env k,
          { content := FSContent.bin (env.decode (d.data.getD "")), mtime := env.nowStr }) ::
          editWrites env dir (k + 1) ps
      else editWrites env dir (k + 1) ps
    | none => editWrites env dir k ps

/-- How far the `editImage` loop advances the synthesis counter. -/
def editDraws : List Part → Nat
  | [] => 0
  | p :: ps =>
    match p.inlineData with
    | some _ => 1 + editDraws ps
    | none => editDraws ps

/-- The first component of the last write, or a default when none. -/
def lastPathOf : List (String × FileData) → Option String → Option String
  | [], dflt => dflt
  | w :: ws, _ => lastPathOf ws (some w.1)

theorem str_append_assoc (a b c : String) : a ++ b ++ c = a ++ (b ++ c) := by
  obtain ⟨l1⟩ := a
  obtain ⟨l2⟩ := b
  obtain ⟨l3⟩ := c
  show String.mk ((l1 ++ l2) ++ l3) = String.mk (l1 ++ (l2 ++ l3))
  rw [List.append_assoc]

theorem str_append_empty (s : String) : s ++ "" = s := by
  obtain ⟨l⟩ := s
  show String.mk (l ++ []) = String.mk l
  rw [List.append_nil]

theorem str_empty_append (s : String) : "" ++ s = s := by
  obtain ⟨l⟩ := s
  show String.mk ([] ++ l) = String.mk l
  rw [List.nil_append]

/-- The `generateImage` response loop, projected onto its spec-side
description. -/
theorem foldGen_eq (env : Env) (dir : String) (parts : List Part) (acc : LoopAcc) :
    List.foldl (processGenPart env dir) acc parts =
      { content := acc.content ++ imageContentsOf parts,
        savedFiles := acc.savedFiles ++ (genWrites env dir acc.k parts).map Prod.fst,
        textContent := acc.textContent ++ textsOf parts,
        lastImagePath := lastPathOf (genWrites env dir acc.k parts) acc.lastImagePath,
        fs := { files := (genWrites env dir acc.k parts).reverse ++ acc.fs.files,
                dirs := acc.fs.dirs },
        k := acc.k + (genWrites env dir acc.k parts).length } := by
  induction parts generalizing acc with
  | nil => simp [imageContentsOf, genWrites, textsOf, lastPathOf]
  | cons p ps ih =>
    simp only [List.foldl_cons]
    rw [ih]
    cases hd : p.inlineData with
    | none =>
      cases ht : strTruthy p.text <;>
        simp [processGenPart, hd, ht, imageContentsOf, genWrites, textsOf,
          str_append_assoc, str_empty_append]
    | some d =>
      cases hsd : strTruthy d.data <;> cases ht : strTruthy p.text <;>
        simp [processGenPart, hd, ht, hsd, imageContentsOf, genWrites, textsOf,
          lastPathOf, writeFS, str_append_assoc, str_empty_append,
          List.append_assoc] <;> omega

/-- The `editImage` response loop, projected onto its spec-side
description. -/
theorem foldEdit_eq (env : Env) (dir : String) (parts : List Part) (acc : LoopAcc) :
    List.foldl (processEditPart env dir) acc parts =
      { content := acc.content ++ imageContentsOf parts,
        savedFiles := acc.savedFiles ++ (editWrites env dir acc.k parts).map Prod.fst,
        textContent := acc.textContent ++ textsOf parts,
        lastImagePath := lastPathOf (editWrites env dir acc.k parts) acc.lastImagePath,
        fs := { files := (editWrites env dir acc.k parts).reverse ++ acc.fs.files,
                dirs := acc.fs.dirs },
        k := acc.k + editDraws parts } := by
  induction parts generalizing acc with
  | nil => simp [imageContentsOf, editWrites, textsOf, lastPathOf, editDraws]
  | cons p ps ih =>
    simp only [List.foldl_cons]
    rw [ih]
    cases hd : p.inlineData with
    | none =>
      cases ht : strTruthy p.text <;>
        simp [processEditPart, hd, ht, imageContentsOf, editWrites, textsOf,
          editDraws, str_append_assoc, str_empty_append]
    | some d =>
      cases hsd : strTruthy d.data <;> cases ht : strTruthy p.text <;>
        simp [processEditPart, hd, ht, hsd, imageContentsOf, editWrites, textsOf,
          editDraws, lastPathOf, writeFS, str_append_assoc, str_empty_append,
          List.append_assoc] <;> omega

/-! ### Association-list and write-list lemmas -/

theorem lookupFile_cons_self (p : String) (d : FileData)
    (l : List (String × FileData)) : lookupFile ((p, d) :: l) p = some d := by
  simp [lookupFile]

theorem lookupFile_isSome_of_mem (l : List (String × FileData)) (p : String)
    (h : p ∈ l.map Prod.fst) : (lookupFile l p).isSome := by
  induction l with
  | nil => simp at h
  | cons e es ih =>
    simp only [List.map_cons, List.mem_cons] at h
    by_cases he : e.1 = p
    · simp [lookupFile, he]
    · rcases h with h | h
      · exact absurd h.symm he
      · simp [lookupFile, he, ih h]

theorem lookupFile_append_left (l₁ l₂ : List (String × FileData)) (p : String)
    (h : p ∈ l₁.map Prod.fst) :
    lookupFile (l₁ ++ l₂) p = lookupFile l₁ p := by
  induction l₁ with
  | nil => simp at h
  | cons e es ih =>
    simp only [List.map_cons, List.mem_cons] at h
    by_cases he : e.1 = p
    · simp [lookupFile, he]
    · rcases h with h | h
      · exact absurd h.symm he
      · simp [lookupFile, he, ih h]

theorem lookupFile_reverse_append (ws l : List (String × FileData))
    (w : String × FileData) (rest : List (String × FileData))
    (hw : ws = l ++ [w]) :
    lookupFile (ws.reverse ++ rest) w.1 = some w.2 := by
  subst hw
  simp only [List.reverse_append, List.reverse_cons, List.reverse_nil,
    List.nil_append, List.cons_append]
  exact lookupFile_cons_self w.1 w.2 _

theorem lastPathOf_append_singleton (l : List (String × FileData))
    (w : String × FileData) (dflt : Option String) :
    lastPathOf (l ++ [w]) dflt = some w.1 := by
  induction l generalizing dflt with
  | nil => rfl
  | cons x xs ih => simpa [lastPathOf] using ih (some x.1)

theorem lastPathOf_ne_none (ws : List (String × FileData)) (dflt : Option String)
    (h : dflt ≠ none) : lastPathOf ws dflt ≠ none := by
  induction ws generalizing dflt with
  | nil => exact h
  | cons x xs ih => exact ih (some x.1) (by simp)

/-- Every write of the generate loop stores decoded bytes stamped with
the write time of the call, at a path of the synthesised filename form. -/
theorem genWrites_shape (env : Env) (dir : String) (k : Nat) (parts : List Part) :
    ∀ w ∈ genWrites env dir k parts, ∃ j data,
      w = (dir ++ "/" ++ genFileName env j,
        { content := FSContent.bin (env.decode data), mtime := env.nowStr }) := by
  induction parts generalizing k with
  | nil => simp [genWrites]
  | cons p ps ih =>
    intro w hw
    cases hd : p.inlineData with
    | none =>
      rw [genWrites, hd] at hw
      exact ih k w hw
    | some d =>
      rw [genWrites, hd] at hw
      by_cases hsd : strTruthy d.data
      · simp only [hsd, if_true, List.mem_cons] at hw
        rcases hw with hw | hw
        · exact ⟨k, d.data.getD "", hw⟩
        · exact ih (k + 1) w hw
      · simp only [hsd, if_false] at hw
        exact ih k w hw

/-- Every write of the edit loop stores decoded bytes stamped with the
write time of the call, at a path of the synthesised filename form. -/
theorem editWrites_shape (env : Env) (dir : String) (k : Nat) (parts : List Part) :
    ∀ w ∈ editWrites env dir k parts, ∃ j data,
      w = (dir ++ "/" ++ editFileName env j,
        { content := FSContent.bin (env.decode data), mtime := env.nowStr }) := by
  induction parts generalizing k with
  | nil => simp [editWrites]
  | cons p ps ih =>
    intro w hw
    cases hd : p.inlineData with
    | none =>
      rw [editWrites, hd] at hw
      exact ih k w hw
    | some d =>
      rw [editWrites, hd] at hw
      by_cases hsd : strTruthy d.data
      · simp only [hsd, if_true, List.mem_cons] at hw
        rcases hw with hw | hw
        · exact ⟨k, d.data.getD "", hw⟩
        · exact ih (k + 1) w hw
      · simp only [hsd, if_false] at hw
        exact ih (k + 1) w hw

/-- The generate loop saves exactly one file per image content part. -/
theorem genWrites_length (env : Env) (dir : String) (k : Nat) (parts : List Part) :
    (genWrites env dir k parts).length = (imageContentsOf parts).length := by
  induction parts generalizing k with
  | nil => rfl
  | cons p ps ih =>
    cases hd : p.inlineData with
    | none => simp [genWrites, imageContentsOf, hd, ih]
    | some d =>
      by_cases hsd : strTruthy d.data <;>
        simp [genWrites, imageContentsOf, hd, hsd, ih]

/-- The edit loop saves exactly one file per image content part. -/
theorem editWrites_length (env : Env) (dir : String) (k : Nat) (parts : List Part) :
    (editWrites env dir k parts).length = (imageContentsOf parts).length := by
  induction parts generalizing k with
  | nil => rfl
  | cons p ps ih =>
    cases hd : p.inlineData with
    | none => simp [editWrites, imageContentsOf, hd, ih]
    | some d =>
      by_cases hsd : strTruthy d.data <;>
        simp [editWrites, imageContentsOf, hd, hsd, ih]

/-! ### Run lemmas: a successful generate/edit call, fully computed -/

/-- A configured `generateImage` call with a successful upstream
response, expressed through the spec-side projections. -/
theorem generateImage_run (env : Env) (st : SessionState) (fs : FS)
    (args : Arguments) (resp : GenResponse)
    (hc : ensureConfigured st = true) (hr : env.apiResult = Except.ok resp) :
    generateImage env st fs args =
      ⟨Except.ok ⟨ContentPart.text (genStatusText env.defaultImageModel args.prompt
          (args.aspect.getD "4:3") (args.imageSize.getD "1K")
          (textsOf (responseParts resp))
          ((genWrites env env.imagesDir 0 (responseParts resp)).map Prod.fst)) ::
          imageContentsOf (responseParts resp)⟩,
        ⟨st.config, st.genAI,
          lastPathOf (genWrites env env.imagesDir 0 (responseParts resp))
            st.lastImagePath, st.configSource⟩,
        ⟨(genWrites env env.imagesDir 0 (responseParts resp)).reverse ++
            (mkdirp fs env.imagesDir).files,
          (mkdirp fs env.imagesDir).dirs⟩,
        (genWrites env env.imagesDir 0 (responseParts resp)).map Prod.fst,
        some ⟨env.defaultImageModel, RemoteContents.promptText args.prompt,
          ⟨args.aspect.getD "4:3",
            if env.defaultImageModel = "gemini-3-pro-image-preview"
              then some (args.imageSize.getD "1K") else none⟩⟩⟩ := by
  simp only [generateImage, hc, not_true_eq_false, Bool.false_eq_true,
    if_false, hr]
  rw [foldGen_eq]
  simp [str_empty_append]

/-- A configured `editImage` call whose primary image is readable, with
a successful upstream response, expressed through the spec-side
projections. -/
theorem editImage_run (env : Env) (st : SessionState) (fs : FS)
    (args : Arguments) (fd : FileData) (resp : GenResponse)
    (hc : ensureConfigured st = true)
    (hp : readFS fs args.imagePath = some fd)
    (hr : env.apiResult = Except.ok resp) :
    editImage env st fs args =
      ⟨Except.ok ⟨ContentPart.text (editStatusText env.defaultImageModel
          args.imagePath args.prompt (args.aspect.getD "4:3")
          (args.imageSize.getD "1K") args.referenceImages
          (textsOf (responseParts resp))
          ((editWrites env env.imagesDir 0 (responseParts resp)).map Prod.fst)) ::
          imageContentsOf (responseParts resp)⟩,
        ⟨st.config, st.genAI,
          lastPathOf (editWrites env env.imagesDir 0 (responseParts resp))
            st.lastImagePath, st.configSource⟩,
        ⟨(editWrites env env.imagesDir 0 (responseParts resp)).reverse ++
            (mkdirp fs env.imagesDir).files,
          (mkdirp fs env.imagesDir).dirs⟩,
        (editWrites env env.imagesDir 0 (responseParts resp)).map Prod.fst,
        some ⟨env.defaultImageModel, RemoteContents.parts
          (ReqPart.inline (env.encode fd.content) (getMimeType args.imagePath) ::
            refReqParts env fs (args.referenceImages.getD []) ++
            [ReqPart.text args.prompt]),
          ⟨args.aspect.getD "4:3",
            if env.defaultImageModel = "gemini-3-pro-image-preview"
              then some (args.imageSize.getD "1K") else none⟩⟩⟩ := by
  simp only [editImage, hc, not_true_eq_false, Bool.false_eq_true,
    if_false, hp, hr]
  rw [foldEdit_eq]
  simp [str_empty_append]

/-! ### Concrete material for witnesses and counterexamples -/

/-- A concrete upstream response: one candidate whose content holds a
text part and an inline-image part. -/
def respW : GenResponse :=
  ⟨some [⟨some ⟨some [⟨some "desc", none⟩,
    ⟨none, some ⟨some "QUJD", some "image/png"⟩⟩]⟩⟩]⟩

/-- A concrete environment for witnesses. -/
def envW : Env :=
  { defaultImageModel := "gemini-2.5-flash-image", imagesDir := "D", cwd := "W",
    apiResult := Except.ok respW,
    isoNow := fun _ => "2025-01-01T00:00:00.000Z",
    randId := fun _ => "abc123",
    decode := fun s => s.data.map Char.toNat,
    encode := fun _ => "B64",
    nowStr := "NOW" }

/-- A configured session with no prior image. -/
def stW : SessionState :=
  { config := some "key-1", genAI := true, lastImagePath := none,
    configSource := ConfigSource.config_file }

/-- An empty filesystem. -/
def fsW : FS := { files := [], dirs := [] }

/-! ### Claim theorems -/

/-- C1. For every `call_tool` request, the dispatcher error translation
is uniform: a name matching none of the six fixed tools yields a
method-not-found error whose message carries the unrecognized name; an
error raised by an invoked handler that is already an `McpError`
propagates through the catch block unchanged; any other thrown error is
wrapped into an internal error whose message carries the underlying
message; and the dispatched result is exactly the catch-block
translation applied to the outcome of the switch body. -/
theorem c1_call_tool_error_translation (env : Env) (st : SessionState) (fs : FS)
    (name : String) (args : Arguments) :
    (name ∉ toolNames →
      (callTool env st fs name args).result =
        Except.error { code := ErrCode.methodNotFound,
                       message := "Unknown tool: " ++ name })
  ∧ (∀ e : McpError,
      wrapDispatchError (Except.error (JsError.mcp e)) = Except.error e)
  ∧ (∀ m : String,
      wrapDispatchError (Except.error (JsError.other m)) =
        Except.error { code := ErrCode.internalError,
                       message := "Tool execution failed: " ++ m })
  ∧ (callTool env st fs name args).result =
      wrapDispatchError (callToolBody env st fs name args).result := by
  refine ⟨?_, fun e => rfl, fun m => rfl, rfl⟩
  intro h
  simp only [toolNames, List.mem_cons, List.not_mem_nil, or_false, not_or] at h
  obtain ⟨h1, h2, h3, h4, h5, h6⟩ := h
  simp [callTool, callToolBody, errOut, wrapDispatchError, h1, h2, h3, h4, h5, h6]

/-- Witness for C1 at the unknown tool name `"frobnicate"`. -/
theorem c1_witness :
    (callTool envW stW fsW "frobnicate" {}).result =
      Except.error { code := ErrCode.methodNotFound,
                     message := "Unknown tool: frobnicate" } :=
  (c1_call_tool_error_translation envW stW fsW "frobnicate" {}).1 (by decide)

/-- C2. `continue_editing` evaluates its guards in order — missing
credentials, then missing `lastImagePath`, then the stored file no
longer existing — each failing with an invalid-request error and
leaving state and filesystem untouched; when all guards pass it behaves
exactly as `edit_image` with the stored path as `imagePath` and all
other arguments passed through unchanged. -/
theorem c2_continue_editing_guards (env : Env) (st : SessionState) (fs : FS)
    (args : Arguments) :
    (ensureConfigured st = false →
      continueEditing env st fs args = errOut notConfiguredError st fs)
  ∧ (ensureConfigured st = true → st.lastImagePath = none →
      continueEditing env st fs args =
        errOut { code := ErrCode.invalidRequest,
                 message := "No previous image found. Please generate or edit an image first, then use continue_editing for subsequent edits." } st fs)
  ∧ (∀ p, ensureConfigured st = true → st.lastImagePath = some p →
      readFS fs p = none →
      continueEditing env st fs args =
        errOut { code := ErrCode.invalidRequest,
                 message := "Last image file not found at: " ++ p ++ ". Please generate a new image first." } st fs)
  ∧ (∀ p, ensureConfigured st = true → st.lastImagePath = some p →
      (readFS fs p).isSome →
      continueEditing env st fs args =
        editImage env st fs
          { apiKey := none, prompt := args.prompt, imagePath := p,
            referenceImages := args.referenceImages, aspect := args.aspect,
            imageSize := args.imageSize }) := by
  refine ⟨fun hc => ?_, fun hc hl => ?_, fun p hc hl hm => ?_, fun p hc hl hm => ?_⟩
  · simp [continueEditing, hc]
  · simp [continueEditing, hc, hl]
  · simp [continueEditing, hc, hl, hm]
  · simp [continueEditing, hc, hl, hm]

/-- Witness for C2: calling `continue_editing` in a configured session
that has produced no image yields the no-previous-image error. -/
theorem c2_witness :
    continueEditing envW stW fsW { prompt := "p" } =
      errOut { code := ErrCode.invalidRequest,
               message := "No previous image found. Please generate or edit an image first, then use continue_editing for subsequent edits." } stW fsW :=
  (c2_continue_editing_guards envW stW fsW { prompt := "p" }).2.1 rfl rfl

/-- C3. `generate_image` and `edit_image` called without credentials
(config or client handle absent) fail with an invalid-request error and
have no side effect: state, filesystem, saved-file list and remote call
are all untouched. -/
theorem c3_unconfigured_no_side_effect (env : Env) (st : SessionState) (fs : FS)
    (args : Arguments) (h : st.config = none ∨ st.genAI = false) :
    generateImage env st fs args = errOut notConfiguredError st fs
  ∧ editImage env st fs args = errOut notConfiguredError st fs := by
  have hc : ensureConfigured st = false := by
    rcases h with h | h <;> simp [ensureConfigured, h]
  exact ⟨by simp [generateImage, hc], by simp [editImage, hc]⟩

/-- Witness for C3 at the unconfigured initial state. -/
theorem c3_witness :
    generateImage envW initialState fsW { prompt := "p" } =
      errOut notConfiguredError initialState fsW
  ∧ editImage envW initialState fsW { imagePath := "x.png", prompt := "p" } =
      errOut notConfiguredError initialState fsW :=
  ⟨(c3_unconfigured_no_side_effect envW initialState fsW { prompt := "p" }
      (Or.inl rfl)).1,
   (c3_unconfigured_no_side_effect envW initialState fsW
      { imagePath := "x.png", prompt := "p" } (Or.inl rfl)).2⟩

/-- C4 counterexample. The claim says a whitespace-only `apiKey` is
rejected with no mutation; but `" "` consists only of whitespace, has
length 1, passes `z.string().min(1)`, and the call succeeds, installs
`" "` as the credential with provenance `config_file`, and writes the
config file. -/
theorem c4_counterexample :
    (" ".data.all (fun c => c == ' ') = true)
  ∧ (configureGeminiToken envW stW fsW { apiKey := some " " }).result =
      Except.ok { content := [ContentPart.text "✅ Gemini API token configured successfully! You can now use nano-banana image generation features."] }
  ∧ (configureGeminiToken envW stW fsW { apiKey := some " " }).state.config =
      some " "
  ∧ (configureGeminiToken envW stW fsW { apiKey := some " " }).state.configSource =
      ConfigSource.config_file
  ∧ (configureGeminiToken envW stW fsW { apiKey := some " " }).fs ≠ fsW := by
  exact ⟨rfl, rfl, rfl, rfl, by decide⟩

/-- C4 amended. For every `configure_gemini_token` call whose `apiKey`
is the empty string, the call fails with an invalid-parameters error
and no mutation occurs: session state (credentials, client handle,
provenance) and the filesystem (hence the persisted config file) are
unchanged.  (Whitespace-only non-empty keys are accepted by the code.) -/
theorem c4_amended_empty_key_rejected (env : Env) (st : SessionState) (fs : FS)
    (args : Arguments) (h : args.apiKey = some "") :
    configureGeminiToken env st fs args =
      errOut { code := ErrCode.invalidParams,
               message := "Invalid API key: Gemini API key is required" } st fs := by
  simp [configureGeminiToken, zodParseKey, h]

/-- Witness for the amended C4 at the empty key. -/
theorem c4_amended_witness :
    configureGeminiToken envW stW fsW { apiKey := some "" } =
      errOut { code := ErrCode.invalidParams,
               message := "Invalid API key: Gemini API key is required" } stW fsW :=
  c4_amended_empty_key_rejected envW stW fsW { apiKey := some "" } rfl

/-- C5. Every successful `generate_image` or `edit_image` call returns
exactly one text part (the status block) first, followed by one image
part per saved file, in upstream order, each carrying the original
upstream base64 data and mime type; with zero files saved the call is
still a success containing only the status block. -/
theorem c5_result_content_shape (env : Env) (st : SessionState) (fs : FS)
    (args : Arguments) (resp : GenResponse)
    (hc : ensureConfigured st = true) (hr : env.apiResult = Except.ok resp) :
    ((generateImage env st fs args).result =
        Except.ok ⟨ContentPart.text (genStatusText env.defaultImageModel
            args.prompt (args.aspect.getD "4:3") (args.imageSize.getD "1K")
            (textsOf (responseParts resp))
            ((generateImage env st fs args).savedFiles)) ::
          imageContentsOf (responseParts resp)⟩
      ∧ (generateImage env st fs args).savedFiles.length =
          (imageContentsOf (responseParts resp)).length)
  ∧ (∀ fd, readFS fs args.imagePath = some fd →
      (editImage env st fs args).result =
        Except.ok ⟨ContentPart.text (editStatusText env.defaultImageModel
            args.imagePath args.prompt (args.aspect.getD "4:3")
            (args.imageSize.getD "1K") args.referenceImages
            (textsOf (responseParts resp))
            ((editImage env st fs args).savedFiles)) ::
          imageContentsOf (responseParts resp)⟩
      ∧ (editImage env st fs args).savedFiles.length =
          (imageContentsOf (responseParts resp)).length) := by
  constructor
  · rw [generateImage_run env st fs args resp hc hr]
    exact ⟨rfl, by simpa using genWrites_length env env.imagesDir 0 (responseParts resp)⟩
  · intro fd hp
    rw [editImage_run env st fs args fd resp hc hp hr]
    exact ⟨rfl, by simpa using editWrites_length env env.imagesDir 0 (responseParts resp)⟩

/-- Witness for C5: a concrete generate call (one text part, one image
part upstream) returns the status block followed by exactly the one
image part, and a concrete edit call does the same. -/
theorem c5_witness :
    ((generateImage envW stW fsW { prompt := "a cat" }).result =
        Except.ok ⟨ContentPart.text (genStatusText "gemini-2.5-flash-image"
            "a cat" "4:3" "1K" "desc"
            ["D/generated-2025-01-01T00-00-00-000Z-abc123.png"]) ::
          [ContentPart.image "QUJD" "image/png"]⟩
      ∧ (generateImage envW stW fsW { prompt := "a cat" }).savedFiles.length = 1) := by
  have h := (c5_result_content_shape envW stW fsW { prompt := "a cat" } respW
    rfl rfl).1
  exact h

/-- The reference parts included in an edit request are unchanged by
deleting an unreadable path from the reference list: an unreadable
reference is simply omitted. -/
theorem refReqParts_erase_unreadable (env : Env) (fs : FS)
    (refs : List String) (rp : String) (h : readFS fs rp = none) :
    refReqParts env fs refs = refReqParts env fs (refs.erase rp) := by
  induction refs with
  | nil => rfl
  | cons x rest ih =>
    by_cases hx : x = rp
    · subst hx
      simp only [List.erase_cons_head]
      rw [refReqParts, h]
    · rw [List.erase_cons_tail]
      · rw [refReqParts]
        cases hrx : readFS fs x with
        | none => rw [ih, refReqParts, hrx]
        | some rfd => rw [ih, refReqParts, hrx]
      · simp [hx]

/-- C6. In `edit_image`, each reference path is read independently and
an unreadable reference is swallowed: the upstream request contains the
primary image, then exactly the readable references in order, then the
prompt; deleting an unreadable reference from the argument list does
not change the request, and the call can still succeed.  An unreadable
primary image, by contrast, fails the whole call. -/
theorem c6_reference_failures_swallowed (env : Env) (st : SessionState)
    (fs : FS) (args : Arguments) (hc : ensureConfigured st = true) :
    (readFS fs args.imagePath = none →
      editImage env st fs args =
        errOut { code := ErrCode.internalError,
                 message := "Failed to edit image: ENOENT: no such file or directory, open " ++ args.imagePath } st fs)
  ∧ (∀ fd, readFS fs args.imagePath = some fd → ∀ resp,
      env.apiResult = Except.ok resp →
      (editImage env st fs args).remoteRequest =
        some ⟨env.defaultImageModel, RemoteContents.parts
          (ReqPart.inline (env.encode fd.content) (getMimeType args.imagePath) ::
            refReqParts env fs (args.referenceImages.getD []) ++
            [ReqPart.text args.prompt]),
          ⟨args.aspect.getD "4:3",
            if env.defaultImageModel = "gemini-3-pro-image-preview"
              then some (args.imageSize.getD "1K") else none⟩⟩
      ∧ (∃ r, (editImage env st fs args).result = Except.ok r))
  ∧ (∀ rp, readFS fs rp = none →
      refReqParts env fs (args.referenceImages.getD []) =
        refReqParts env fs ((args.referenceImages.getD []).erase rp)) := by
  refine ⟨fun hp => ?_, fun fd hp resp hr => ?_, fun rp h =>
    refReqParts_erase_unreadable env fs _ rp h⟩
  · simp [editImage, hc, hp, errOut]
  · rw [editImage_run env st fs args fd resp hc hp hr]
    exact ⟨rfl, _, rfl⟩

/-- Witness for C6: with primary image `main.png` present and the sole
reference `missing.png` absent, the edit call succeeds and its upstream
request holds only the primary image and the prompt. -/
theorem c6_witness :
    (editImage envW stW
        ⟨[("main.png", ⟨FSContent.bin [1, 2, 3], "M"⟩)], []⟩
        { imagePath := "main.png", prompt := "p",
          referenceImages := some ["missing.png"] }).remoteRequest =
      some ⟨"gemini-2.5-flash-image", RemoteContents.parts
        [ReqPart.inline "B64" "image/png", ReqPart.text "p"],
        ⟨"4:3", none⟩⟩
  ∧ (∃ r, (editImage envW stW
      ⟨[("main.png", ⟨FSContent.bin [1, 2, 3], "M"⟩)], []⟩
      { imagePath := "main.png", prompt := "p",
        referenceImages := some ["missing.png"] }).result = Except.ok r) :=
  (c6_reference_failures_swallowed envW stW
    ⟨[("main.png", ⟨FSContent.bin [1, 2, 3], "M"⟩)], []⟩
    { imagePath := "main.png", prompt := "p",
      referenceImages := some ["missing.png"] } rfl).2.1
    ⟨FSContent.bin [1, 2, 3], "M"⟩ rfl respW rfl

/-- C7 counterexample. The filename prefix stated by the claim is wrong: the code
prefixes `generated-` (and `edited-`), not `generate-` (`edit-`).  On a
concrete run the single saved file is
`D/generated-2025-01-01T00-00-00-000Z-abc123.png`, and the claimed
`generate-` prefix does not match it. -/
theorem c7_counterexample :
    (generateImage envW stW fsW { prompt := "a cat" }).savedFiles =
      ["D/generated-2025-01-01T00-00-00-000Z-abc123.png"]
  ∧ List.isPrefixOf "D/generate-".data
      "D/generated-2025-01-01T00-00-00-000Z-abc123.png".data = false
  ∧ List.isPrefixOf "D/generated-".data
      "D/generated-2025-01-01T00-00-00-000Z-abc123.png".data = true := by
  exact ⟨rfl, by decide, by decide⟩

/-- C7 amended. Every upstream part with truthy inline data causes a file
`{generated|edited}-{ISO-timestamp-with-colons-and-dots-replaced}-{random-suffix}.png`
(prefix `generated-` for generate, `edited-` for edit) to be written
inside the save directory with the decoded bytes, recorded in the
saved-files list in order, and `lastImagePath` ends at the last such
path. -/
theorem c7_amended_saved_file_naming (env : Env) (st : SessionState) (fs : FS)
    (args : Arguments) (resp : GenResponse)
    (hc : ensureConfigured st = true) (hr : env.apiResult = Except.ok resp) :
    ((generateImage env st fs args).savedFiles =
        (genWrites env env.imagesDir 0 (responseParts resp)).map Prod.fst
      ∧ (generateImage env st fs args).state.lastImagePath =
          lastPathOf (genWrites env env.imagesDir 0 (responseParts resp))
            st.lastImagePath
      ∧ (∀ w ∈ genWrites env env.imagesDir 0 (responseParts resp), ∃ j data,
          w = (env.imagesDir ++ "/" ++ genFileName env j,
            ⟨FSContent.bin (env.decode data), env.nowStr⟩))
      ∧ (∀ p ∈ (generateImage env st fs args).savedFiles,
          (readFS (generateImage env st fs args).fs p).isSome))
  ∧ (∀ fd, readFS fs args.imagePath = some fd →
      (editImage env st fs args).savedFiles =
        (editWrites env env.imagesDir 0 (responseParts resp)).map Prod.fst
      ∧ (editImage env st fs args).state.lastImagePath =
          lastPathOf (editWrites env env.imagesDir 0 (responseParts resp))
            st.lastImagePath
      ∧ (∀ w ∈ editWrites env env.imagesDir 0 (responseParts resp), ∃ j data,
          w = (env.imagesDir ++ "/" ++ editFileName env j,
            ⟨FSContent.bin (env.decode data), env.nowStr⟩))
      ∧ (∀ p ∈ (editImage env st fs args).savedFiles,
          (readFS (editImage env st fs args).fs p).isSome)) := by
  constructor
  · rw [generateImage_run env st fs args resp hc hr]
    refine ⟨rfl, rfl, genWrites_shape env env.imagesDir 0 (responseParts resp),
      fun p hp => ?_⟩
    apply lookupFile_isSome_of_mem
    simp only [List.map_append, List.map_reverse, List.mem_append,
      List.mem_reverse]
    exact Or.inl (by simpa using hp)
  · intro fd hp
    rw [editImage_run env st fs args fd resp hc hp hr]
    refine ⟨rfl, rfl, editWrites_shape env env.imagesDir 0 (responseParts resp),
      fun p hmem => ?_⟩
    apply lookupFile_isSome_of_mem
    simp only [List.map_append, List.map_reverse, List.mem_append,
      List.mem_reverse]
    exact Or.inl (by simpa using hmem)

/-- Witness for the amended C7 on the concrete run: one file saved, of
the `generated-` form, and `lastImagePath` pointing at it. -/
theorem c7_amended_witness :
    (generateImage envW stW fsW { prompt := "a cat" }).savedFiles =
      (genWrites envW "D" 0 (responseParts respW)).map Prod.fst
  ∧ (generateImage envW stW fsW { prompt := "a cat" }).state.lastImagePath =
      lastPathOf (genWrites envW "D" 0 (responseParts respW)) none :=
  ⟨(c7_amended_saved_file_naming envW stW fsW { prompt := "a cat" } respW
      rfl rfl).1.1,
   (c7_amended_saved_file_naming envW stW fsW { prompt := "a cat" } respW
      rfl rfl).1.2.1⟩

/-- C8. The MIME mapping is a total pure function of the (case-folded)
extension: `.jpg`/`.jpeg` map to `image/jpeg`, `.png` to `image/png`,
`.webp` to `image/webp`, anything else (including no extension) to
`image/jpeg`; in particular on `a.JPG`, `photo.png`, `x.webp` and
`file.gif`. -/
theorem c8_mime_mapping (p : String) :
    (lowerStr (extname p) = ".jpg" ∨ lowerStr (extname p) = ".jpeg" →
      getMimeType p = "image/jpeg")
  ∧ (lowerStr (extname p) = ".png" → getMimeType p = "image/png")
  ∧ (lowerStr (extname p) = ".webp" → getMimeType p = "image/webp")
  ∧ (lowerStr (extname p) ≠ ".jpg" → lowerStr (extname p) ≠ ".jpeg" →
      lowerStr (extname p) ≠ ".png" → lowerStr (extname p) ≠ ".webp" →
      getMimeType p = "image/jpeg")
  ∧ getMimeType "a.JPG" = "image/jpeg"
  ∧ getMimeType "photo.png" = "image/png"
  ∧ getMimeType "x.webp" = "image/webp"
  ∧ getMimeType "file.gif" = "image/jpeg" := by
  refine ⟨fun h => ?_, fun h => ?_, fun h => ?_, fun h1 h2 h3 h4 => ?_,
    by decide, by decide, by decide, by decide⟩
  · rcases h with h | h <;> simp [getMimeType, h]
  · simp [getMimeType, h]
  · simp [getMimeType, h]
  · simp [getMimeType, h1, h2, h3, h4]

/-- Witness for C8 at the default-branch input `file.gif`. -/
theorem c8_witness : getMimeType "file.gif" = "image/jpeg" :=
  (c8_mime_mapping "file.gif").2.2.2.1 (by decide) (by decide) (by decide)
    (by decide)

/-- C9. After a successful `generate_image` or `edit_image` call that
saved at least one file, and with no intervening filesystem change,
`get_last_image_info` reports a path that exists on disk, whose stored
contents are the bytes written by that call (stamped with the write
time of the call), with the reported size derived from exactly that byte
count. -/
theorem c9_last_image_info (env : Env) (st : SessionState) (fs : FS)
    (args : Arguments) (resp : GenResponse)
    (hc : ensureConfigured st = true) (hr : env.apiResult = Except.ok resp) :
    ((generateImage env st fs args).savedFiles ≠ [] →
      ∃ p bs,
        (generateImage env st fs args).state.lastImagePath = some p
      ∧ p ∈ (generateImage env st fs args).savedFiles
      ∧ readFS (generateImage env st fs args).fs p =
          some ⟨FSContent.bin bs, env.nowStr⟩
      ∧ getLastImageInfo (generateImage env st fs args).state
            (generateImage env st fs args).fs =
          ⟨[ContentPart.text ("📷 Last Image Information:\n\nPath: " ++ p ++
              "\nFile Size: " ++ toString ((bs.length + 512) / 1024) ++
              " KB\nLast Modified: " ++ env.nowStr ++
              "\n\n💡 Use continue_editing to make further changes to this image.")]⟩)
  ∧ (∀ fd, readFS fs args.imagePath = some fd →
      (editImage env st fs args).savedFiles ≠ [] →
      ∃ p bs,
        (editImage env st fs args).state.lastImagePath = some p
      ∧ p ∈ (editImage env st fs args).savedFiles
      ∧ readFS (editImage env st fs args).fs p =
          some ⟨FSContent.bin bs, env.nowStr⟩
      ∧ getLastImageInfo (editImage env st fs args).state
            (editImage env st fs args).fs =
          ⟨[ContentPart.text ("📷 Last Image Information:\n\nPath: " ++ p ++
              "\nFile Size: " ++ toString ((bs.length + 512) / 1024) ++
              " KB\nLast Modified: " ++ env.nowStr ++
              "\n\n💡 Use continue_editing to make further changes to this image.")]⟩) := by
  constructor
  · rw [generateImage_run env st fs args resp hc hr]
    intro hne
    rcases List.eq_nil_or_concat'
        (genWrites env env.imagesDir 0 (responseParts resp)) with hnil | ⟨l, w, hlw⟩
    · rw [hnil] at hne
      simp at hne
    · obtain ⟨j, data, hshape⟩ :=
        genWrites_shape env env.imagesDir 0 (responseParts resp) w
          (by rw [hlw]; exact List.mem_append_right _ (List.mem_singleton_self w))
      have hlast : lastPathOf (genWrites env env.imagesDir 0 (responseParts resp))
          st.lastImagePath = some w.1 := by
        rw [hlw]
        exact lastPathOf_append_singleton l w _
      have hlook : lookupFile
          ((genWrites env env.imagesDir 0 (responseParts resp)).reverse ++
            (mkdirp fs env.imagesDir).files) w.1 = some w.2 :=
        lookupFile_reverse_append _ l w _ hlw
      have hw2 : w.2 = ⟨FSContent.bin (env.decode data), env.nowStr⟩ := by
        rw [hshape]
      refine ⟨w.1, env.decode data, hlast, ?_, ?_, ?_⟩
      · rw [hlw]
        simp
      · show lookupFile _ w.1 = _
        rw [hlook, hw2]
      · show getLastImageInfo
          ⟨st.config, st.genAI,
            lastPathOf (genWrites env env.imagesDir 0 (responseParts resp))
              st.lastImagePath, st.configSource⟩ _ = _
        rw [hlast]
        show (match readFS _ w.1 with
          | some fd => _
          | none => _ : CallToolResult) = _
        rw [show readFS ⟨(genWrites env env.imagesDir 0 (responseParts resp)).reverse ++
            (mkdirp fs env.imagesDir).files, (mkdirp fs env.imagesDir).dirs⟩ w.1 =
          some ⟨FSContent.bin (env.decode data), env.nowStr⟩ from by
            show lookupFile _ w.1 = _
            rw [hlook, hw2]]
        rfl
  · intro fd hp
    rw [editImage_run env st fs args fd resp hc hp hr]
    intro hne
    rcases List.eq_nil_or_concat'
        (editWrites env env.imagesDir 0 (responseParts resp)) with hnil | ⟨l, w, hlw⟩
    · rw [hnil] at hne
      simp at hne
    · obtain ⟨j, data, hshape⟩ :=
        editWrites_shape env env.imagesDir 0 (responseParts resp) w
          (by rw [hlw]; exact List.mem_append_right _ (List.mem_singleton_self w))
      have hlast : lastPathOf (editWrites env env.imagesDir 0 (responseParts resp))
          st.lastImagePath = some w.1 := by
        rw [hlw]
        exact lastPathOf_append_singleton l w _
      have hlook : lookupFile
          ((editWrites env env.imagesDir 0 (responseParts resp)).reverse ++
            (mkdirp fs env.imagesDir).files) w.1 = some w.2 :=
        lookupFile_reverse_append _ l w _ hlw
      have hw2 : w.2 = ⟨FSContent.bin (env.decode data), env.nowStr⟩ := by
        rw [hshape]
      refine ⟨w.1, env.decode data, hlast, ?_, ?_, ?_⟩
      · rw [hlw]
        simp
      · show lookupFile _ w.1 = _
        rw [hlook, hw2]
      · show getLastImageInfo
          ⟨st.config, st.genAI,
            lastPathOf (editWrites env env.imagesDir 0 (responseParts resp))
              st.lastImagePath, st.configSource⟩ _ = _
        rw [hlast]
        show (match readFS _ w.1 with
          | some fd => _
          | none => _ : CallToolResult) = _
        rw [show readFS ⟨(editWrites env env.imagesDir 0 (responseParts resp)).reverse ++
            (mkdirp fs env.imagesDir).files, (mkdirp fs env.imagesDir).dirs⟩ w.1 =
          some ⟨FSContent.bin (env.decode data), env.nowStr⟩ from by
            show lookupFile _ w.1 = _
            rw [hlook, hw2]]
        rfl

/-- Witness for C9 on the concrete generate run: one file saved, whose
reported info shows the written byte count. -/
theorem c9_witness :
    ∃ p bs,
      (generateImage envW stW fsW { prompt := "a cat" }).state.lastImagePath =
        some p
    ∧ p ∈ (generateImage envW stW fsW { prompt := "a cat" }).savedFiles
    ∧ readFS (generateImage envW stW fsW { prompt := "a cat" }).fs p =
        some ⟨FSContent.bin bs, envW.nowStr⟩
    ∧ getLastImageInfo (generateImage envW stW fsW { prompt := "a cat" }).state
        (generateImage envW stW fsW { prompt := "a cat" }).fs =
        ⟨[ContentPart.text ("📷 Last Image Information:\n\nPath: " ++ p ++
            "\nFile Size: " ++ toString ((bs.length + 512) / 1024) ++
            " KB\nLast Modified: " ++ envW.nowStr ++
            "\n\n💡 Use continue_editing to make further changes to this image.")]⟩ :=
  (c9_last_image_info envW stW fsW { prompt := "a cat" } respW rfl rfl).1
    (by decide)

/-- The C10 property of one handler invocation: `lastImagePath` is left
unchanged, or set to a path recorded in the saved-files list of this call
and present in the resulting filesystem; and it is never reset to
absent. -/
def MonoOut (st : SessionState) (out : HandlerOut) : Prop :=
  (out.state.lastImagePath = st.lastImagePath ∨
    ∃ p, out.state.lastImagePath = some p ∧ p ∈ out.savedFiles ∧
      (readFS out.fs p).isSome)
  ∧ (st.lastImagePath ≠ none → out.state.lastImagePath ≠ none)

theorem monoOut_errOut (e : McpError) (st : SessionState) (fs : FS) :
    MonoOut st (errOut e st fs) :=
  ⟨Or.inl rfl, fun h => h⟩

theorem lastPathOf_cases (ws : List (String × FileData)) (dflt : Option String) :
    lastPathOf ws dflt = dflt ∨
      ∃ l w, ws = l ++ [w] ∧ lastPathOf ws dflt = some w.1 := by
  rcases List.eq_nil_or_concat' ws with h | ⟨l, w, h⟩
  · subst h
    exact Or.inl rfl
  · refine Or.inr ⟨l, w, h, ?_⟩
    rw [h]
    exact lastPathOf_append_singleton l w dflt

theorem generateImage_mono (env : Env) (st : SessionState) (fs : FS)
    (args : Arguments) : MonoOut st (generateImage env st fs args) := by
  cases hc : ensureConfigured st with
  | false =>
    have h : generateImage env st fs args = errOut notConfiguredError st fs := by
      simp [generateImage, hc]
    rw [h]
    exact monoOut_errOut _ _ _
  | true =>
    cases hr : env.apiResult with
    | error msg =>
      have h : (generateImage env st fs args).state = st ∧
          (generateImage env st fs args).savedFiles = [] := by
        simp [generateImage, hc, hr]
      exact ⟨Or.inl (by rw [h.1]), fun hn => by rw [h.1]; exact hn⟩
    | ok resp =>
      rw [generateImage_run env st fs args resp hc hr]
      rcases lastPathOf_cases (genWrites env env.imagesDir 0 (responseParts resp))
          st.lastImagePath with h | ⟨l, w, hlw, h⟩
      · exact ⟨Or.inl h, fun hn => by show lastPathOf _ _ ≠ none; rw [h]; exact hn⟩
      · refine ⟨Or.inr ⟨w.1, h, ?_, ?_⟩, fun hn => by
          show lastPathOf _ _ ≠ none; rw [h]; simp⟩
        · show w.1 ∈ List.map Prod.fst (genWrites env env.imagesDir 0 (responseParts resp))
          rw [hlw]
          simp
        · have hlook := lookupFile_reverse_append _ l w
            ((mkdirp fs env.imagesDir).files) hlw
          show (lookupFile _ w.1).isSome
          rw [hlook]
          rfl

theorem editImage_mono (env : Env) (st : SessionState) (fs : FS)
    (args : Arguments) : MonoOut st (editImage env st fs args) := by
  cases hc : ensureConfigured st with
  | false =>
    have h : editImage env st fs args = errOut notConfiguredError st fs := by
      simp [editImage, hc]
    rw [h]
    exact monoOut_errOut _ _ _
  | true =>
    cases hp : readFS fs args.imagePath with
    | none =>
      have h : editImage env st fs args =
          errOut { code := ErrCode.internalError,
                   message := "Failed to edit image: ENOENT: no such file or directory, open " ++ args.imagePath } st fs := by
        simp [editImage, hc, hp, errOut]
      rw [h]
      exact monoOut_errOut _ _ _
    | some fd =>
      cases hr : env.apiResult with
      | error msg =>
        have h : (editImage env st fs args).state = st ∧
            (editImage env st fs args).savedFiles = [] := by
          simp [editImage, hc, hp, hr]
        exact ⟨Or.inl (by rw [h.1]), fun hn => by rw [h.1]; exact hn⟩
      | ok resp =>
        rw [editImage_run env st fs args fd resp hc hp hr]
        rcases lastPathOf_cases (editWrites env env.imagesDir 0 (responseParts resp))
            st.lastImagePath with h | ⟨l, w, hlw, h⟩
        · exact ⟨Or.inl h, fun hn => by show lastPathOf _ _ ≠ none; rw [h]; exact hn⟩
        · refine ⟨Or.inr ⟨w.1, h, ?_, ?_⟩, fun hn => by
            show lastPathOf _ _ ≠ none; rw [h]; simp⟩
          · show w.1 ∈ List.map Prod.fst (editWrites env env.imagesDir 0 (responseParts resp))
            rw [hlw]
            simp
          · have hlook := lookupFile_reverse_append _ l w
              ((mkdirp fs env.imagesDir).files) hlw
            show (lookupFile _ w.1).isSome
            rw [hlook]
            rfl

theorem continueEditing_mono (env : Env) (st : SessionState) (fs : FS)
    (args : Arguments) : MonoOut st (continueEditing env st fs args) := by
  cases hc : ensureConfigured st with
  | false =>
    have h : continueEditing env st fs args = errOut notConfiguredError st fs := by
      simp [continueEditing, hc]
    rw [h]
    exact monoOut_errOut _ _ _
  | true =>
    cases hl : st.lastImagePath with
    | none =>
      have h : continueEditing env st fs args =
          errOut { code := ErrCode.invalidRequest,
                   message := "No previous image found. Please generate or edit an image first, then use continue_editing for subsequent edits." } st fs := by
        simp [continueEditing, hc, hl]
      rw [h]
      exact monoOut_errOut _ _ _
    | some p =>
      by_cases hm : (readFS fs p).isSome
      · have h : continueEditing env st fs args =
            editImage env st fs
              { apiKey := none, prompt := args.prompt, imagePath := p,
                referenceImages := args.referenceImages, aspect := args.aspect,
                imageSize := args.imageSize } := by
          simp [continueEditing, hc, hl, hm]
        rw [h]
        exact editImage_mono env st fs _
      · have h : continueEditing env st fs args =
            errOut { code := ErrCode.invalidRequest,
                     message := "Last image file not found at: " ++ p ++ ". Please generate a new image first." } st fs := by
          simp [continueEditing, hc, hl, hm]
        rw [h]
        exact monoOut_errOut _ _ _

theorem configureGeminiToken_mono (env : Env) (st : SessionState) (fs : FS)
    (args : Arguments) : MonoOut st (configureGeminiToken env st fs args) := by
  cases hz : zodParseKey args.apiKey with
  | error m =>
    have h : configureGeminiToken env st fs args =
        errOut { code := ErrCode.invalidParams,
                 message := "Invalid API key: " ++ m } st fs := by
      simp [configureGeminiToken, hz]
    rw [h]
    exact monoOut_errOut _ _ _
  | ok key =>
    have h : (configureGeminiToken env st fs args).state.lastImagePath =
        st.lastImagePath := by
      simp [configureGeminiToken, hz]
    exact ⟨Or.inl h, fun hn => by rw [h]; exact hn⟩

theorem callToolBody_mono (env : Env) (st : SessionState) (fs : FS)
    (name : String) (args : Arguments) :
    MonoOut st (callToolBody env st fs name args) := by
  unfold callToolBody
  split_ifs with h1 h2 h3 h4 h5 h6
  · exact configureGeminiToken_mono env st fs args
  · exact generateImage_mono env st fs args
  · exact editImage_mono env st fs args
  · exact ⟨Or.inl rfl, fun h => h⟩
  · exact continueEditing_mono env st fs args
  · exact ⟨Or.inl rfl, fun h => h⟩
  · exact monoOut_errOut _ _ _

/-- C10. `lastImagePath` is monotone over the session: it starts absent,
every dispatched tool call either leaves it unchanged or points it at a
path recorded in the saved-files list of that same call (present in the
resulting filesystem), and no call ever resets it to absent — in
particular it keeps naming a possibly-deleted file until a later
successful generate or edit overwrites it. -/
theorem c10_lastImagePath_monotone (env : Env) (st : SessionState) (fs : FS)
    (name : String) (args : Arguments) :
    initialState.lastImagePath = none
  ∧ ((callTool env st fs name args).state.lastImagePath = st.lastImagePath
      ∨ ∃ p, (callTool env st fs name args).state.lastImagePath = some p
          ∧ p ∈ (callTool env st fs name args).savedFiles
          ∧ (readFS (callTool env st fs name args).fs p).isSome)
  ∧ (st.lastImagePath ≠ none →
      (callTool env st fs name args).state.lastImagePath ≠ none) := by
  have h := callToolBody_mono env st fs name args
  exact ⟨rfl, h.1, h.2⟩

/-- Witness for C10: a read-only call in a session that has a prior
image keeps `lastImagePath` non-absent. -/
theorem c10_witness :
    (callTool envW ⟨some "key-1", true, some "x.png", ConfigSource.config_file⟩
      fsW "get_last_image_info" {}).state.lastImagePath ≠ none :=
  (c10_lastImagePath_monotone envW
    ⟨some "key-1", true, some "x.png", ConfigSource.config_file⟩
    fsW "get_last_image_info" {}).2.2 (by decide)

example : getMimeType "a.JPG" = "image/jpeg" := by decide
example : getMimeType "photo.png" = "image/png" := by decide
example : getMimeType "x.webp" = "image/webp" := by decide
example : getMimeType "file.gif" = "image/jpeg" := by decide
example : getMimeType "noext" = "image/jpeg" := by decide
example : extname ".bashrc" = "" := by decide
example : sanitizeTs "2025-01-01T00:00:00.000Z" = "2025-01-01T00-00-00-000Z" := by decide

end NanoBanana
